import Mathlib

/-!
# Shallow embedding of `hprocessing/ProcessEnviFile.py`

This file embeds the region-of-interest extraction and calibration pipeline of
`ProcessEnviFile.py` and proves properties of the embedded functions.

Conventions of the embedding:

* Pixel coordinates, grid sizes and band indices are `ℕ`: they are indices and
  counts (pixel positions in an image, numbers of grid cells).  On such
  nonnegative values Python's `int(a / b)` is exactly `ℕ` floor division.
* Reflectance and wavelength values are `ℚ`, exact rational arithmetic in
  place of float64.
* A Python exception propagating out of a function is modelled by `Option`:
  `none` means the call raises.  NumPy's NaN result for `np.mean`/`np.median`
  of an empty selection is a *value*, not an exception; it only shows up for
  empty pixel selections, which are outside every claim, and is modelled by
  the junk value that rational division by zero produces (`0`).
* The image cube `image[row, col, band]` is a function `ℕ → ℕ → ℕ → ℚ`; the
  optional pixel mask is `Option (ℕ → ℕ → ℕ)`.
-/

/-- Python `range(a, b)`: the list `[a, a+1, ..., b-1]`, empty when `b ≤ a`. -/
def pyRange (a b : ℕ) : List ℕ := List.range' a (b - a)

/-- A rectangle `(row_start, row_end, col_start, col_end)`, half-open on both
axes: the four-element `edges` lists passed around in `ProcessEnviFile.py`. -/
structure Edges where
  row_start : ℕ
  row_end : ℕ
  col_start : ℕ
  col_end : ℕ
deriving DecidableEq, Repr

/-- Pixel `(r, c)` lies inside rectangle `e`. -/
def pixelIn (e : Edges) (r c : ℕ) : Prop :=
  e.row_start ≤ r ∧ r < e.row_end ∧ e.col_start ≤ c ∧ c < e.col_end

/-- `np.sort` (ascending). -/
def npSortAsc (l : List ℚ) : List ℚ := List.insertionSort (· ≤ ·) l

/-- `np.mean` of a list; the junk value `0` on the empty list (NumPy: NaN). -/
def listMean (l : List ℚ) : ℚ := l.sum / l.length

/-- `np.median`: the middle element of the sorted list, or the average of the
two middle elements for even length. -/
def npMedian (l : List ℚ) : ℚ :=
  let s := npSortAsc l
  if l.length % 2 = 1 then s.getD (l.length / 2) 0
  else (s.getD (l.length / 2 - 1) 0 + s.getD (l.length / 2) 0) / 2

/-- The four aggregation modes of `getMeanSpectrumFromRectangle`
(`"median"`, `"mean"`, `"max"`, `"max10"`). -/
inductive AggMode
  | median
  | mean
  | maxv
  | max10
deriving DecidableEq, Repr

/-- The `mode` dispatch of `getMeanSpectrumFromRectangle` (lines 167-174).
`np.sort(roi)[-10:]` keeps the last 10 entries of the ascending sort, i.e.
drops `length - 10` (the whole list survives when there are at most 10
entries, by `ℕ` truncated subtraction, exactly like the Python slice).
`np.max` of an empty selection raises (`none`); the other three branches
contain no raise. -/
def aggregate (mode : AggMode) (roi : List ℚ) : Option ℚ :=
  match mode with
  | AggMode.median => some (npMedian roi)
  | AggMode.mean => some (listMean roi)
  | AggMode.maxv =>
      match roi with
      | [] => none
      | x :: xs => some (xs.foldl max x)
  | AggMode.max10 => some (listMean ((npSortAsc roi).drop (roi.length - 10)))

/-- The ROI pixel-collection loop of `getMeanSpectrumFromRectangle`
(lines 159-165): the values of band `band` at all pixels inside the
rectangle, in row-major order, skipping (`continue`) every pixel whose mask
value equals 1 when a mask is supplied. -/
def roiPixels (image : ℕ → ℕ → ℕ → ℚ) (mask : Option (ℕ → ℕ → ℕ))
    (e : Edges) (band : ℕ) : List ℚ :=
  (pyRange e.row_start e.row_end).flatMap (fun row =>
    (pyRange e.col_start e.col_end).filterMap (fun col =>
      match mask with
      | some m => if m row col = 1 then none else some (image row col band)
      | none => some (image row col band)))

/-- `removeBadBands` (lines 491-518): keep entry `i` of `wavelengths` and of
`spectrum` iff `int(bbl[i]) == 1`; returns `(newwavelengths, newspectrum)`.
The Python loop runs over `spectrum` and indexes `bbl[i]` and
`wavelengths[i]`; every call site passes three lists of equal length
(`validateWavelengths` guarantees it), which is the regime this structural
recursion models. -/
def removeBadBands : List ℚ → List ℚ → List ℤ → List ℚ × List ℚ
  | r0 :: ss, w :: ws, b :: bs =>
      let rest := removeBadBands ss ws bs
      if b = 1 then (w :: rest.1, r0 :: rest.2) else rest
  | _, _, _ => ([], [])

/-- `validateWavelengths` (lines 454-488): raise `ValueError` (`none`) on a
length mismatch; with exactly 139 wavelengths drop the first (sentinel zero)
entry of both lists; otherwise pass both lists through unchanged. -/
def validateWavelengths (wavelengths : List ℚ) (bbl : List ℤ) :
    Option (List ℚ × List ℤ) :=
  if wavelengths.length ≠ bbl.length then none
  else if wavelengths.length = 139 then some (wavelengths.drop 1, bbl.drop 1)
  else some (wavelengths, bbl)

/-- The validation-then-filtering composition applied to the wavelength list
at construction time (`__init__`, lines 63-67): `validateWavelengths`
followed by `removeBadBands` with the wavelength list in both the spectrum
and the wavelength positions. -/
def bandFilter (wavelengths : List ℚ) (bbl : List ℤ) :
    Option (List ℚ × List ℚ) :=
  (validateWavelengths wavelengths bbl).map (fun p => removeBadBands p.1 p.1 p.2)

/-- Spec-side composition named by claim C7: first discard index 0 from both
sequences, then filter by flag. -/
def dropHeadThenFilter (wavelengths : List ℚ) (bbl : List ℤ) :
    List ℚ × List ℚ :=
  removeBadBands (wavelengths.drop 1) (wavelengths.drop 1) (bbl.drop 1)

/-- `getCalibratedSpectrum` (lines 429-451): per-band
`soil / spectralon * spectralon_factor` (`np.divide` is elementwise on two
equal-length one-dimensional arrays; `np.squeeze` is the identity there). -/
def getCalibratedSpectrum (soil spectralon : List ℚ)
    (spectralon_factor : ℚ) : List ℚ :=
  (soil.zip spectralon).map (fun p => p.1 / p.2 * spectralon_factor)

/-- Sequencing of a Python `for` loop whose body may raise: the whole loop
raises (`none`) as soon as one element does. -/
def mapOption {α β : Type} (f : α → Option β) : List α → Option (List β)
  | [] => some []
  | a :: as =>
      match f a, mapOption f as with
      | some b, some bs => some (b :: bs)
      | _, _ => none

/-- `getMeanSpectrumFromRectangle` (lines 134-182): aggregate every raw band
over the rectangle, then `removeBadBands`.  The result is the pair
`(usable wavelengths, usable spectrum)` — the column labels and the single
row of the returned one-row DataFrame. -/
def getMeanSpectrumFromRectangle (image : ℕ → ℕ → ℕ → ℚ)
    (mask : Option (ℕ → ℕ → ℕ)) (wavelengths : List ℚ) (bbl : List ℤ)
    (e : Edges) (mode : AggMode) : Option (List ℚ × List ℚ) :=
  (mapOption (fun i => aggregate mode (roiPixels image mask e i))
      (List.range wavelengths.length)).map
    (fun spectrum_mean => removeBadBands spectrum_mean wavelengths bbl)

/-- `getRealGridSize` (lines 184-213): a `0` entry of the grid (or an absent
grid) means one cell per pixel along that axis. -/
def getRealGridSize (grid : Option (ℕ × ℕ)) (e : Edges) : ℕ × ℕ :=
  match grid with
  | none => (e.row_end - e.row_start, e.col_end - e.col_start)
  | some g =>
      (if g.1 = 0 then e.row_end - e.row_start else g.1,
       if g.2 = 0 then e.col_end - e.col_start else g.2)

/-- `getGridElements` (lines 552-569): row-major `(i, j)` labels
(`itertools.product(range(rows), range(cols))`), collapsing to the single
label `(0, 0)` for the degenerate `(0, 0)` grid. -/
def getGridElements (grid : ℕ × ℕ) : List (ℕ × ℕ) :=
  if grid = (0, 0) then [(0, 0)]
  else (List.range grid.1).flatMap (fun i =>
    (List.range grid.2).map (fun j => (i, j)))

/-- The local `height` of `getEdgesForGrid` (line 295): cell height. -/
def gridCellHeight (e : Edges) (g1 : ℕ) : ℕ := (e.row_end - e.row_start) / g1

/-- The local `width` of `getEdgesForGrid` (line 298): cell width. -/
def gridCellWidth (e : Edges) (g2 : ℕ) : ℕ := (e.col_end - e.col_start) / g2

/-- The number of row starts generated by `getEdgesForGrid` (line 302). -/
def gridRowCount (e : Edges) (g1 : ℕ) : ℕ :=
  (e.row_end - e.row_start) / gridCellHeight e g1

/-- The number of column starts generated by `getEdgesForGrid` (line 304). -/
def gridColCount (e : Edges) (g2 : ℕ) : ℕ :=
  (e.col_end - e.col_start) / gridCellWidth e g2

/-- `getEdgesForGrid` (lines 280-312): sub-rectangles of the grid, outer loop
over row starts, inner loop over column starts. -/
def getEdgesForGrid (e : Edges) (grid_real : ℕ × ℕ) : List Edges :=
  let height := gridCellHeight e grid_real.1
  let width := gridCellWidth e grid_real.2
  let new_row_starts :=
    (List.range (gridRowCount e grid_real.1)).map
      (fun i => e.row_start + height * i)
  let new_col_starts :=
    (List.range (gridColCount e grid_real.2)).map
      (fun i => e.col_start + width * i)
  new_row_starts.flatMap (fun row_s =>
    new_col_starts.map (fun col_s =>
      ⟨row_s, row_s + height, col_s, col_s + width⟩))

/-- `getMeanSpectraFromSquareGrid` (lines 215-244): one spectrum per
sub-rectangle, tagged with the grid-element labels.  `pd.concat` of an empty
list raises, and so does the assignment of the `GridElement_Row` /
`GridElement_Column` columns when the label list and the DataFrame differ in
length (pandas `ValueError`); both are `none`. -/
def getMeanSpectraFromSquareGrid (image : ℕ → ℕ → ℕ → ℚ)
    (mask : Option (ℕ → ℕ → ℕ)) (wavelengths : List ℚ) (bbl : List ℤ)
    (grid : Option (ℕ × ℕ)) (e : Edges) (mode : AggMode) :
    Option (List (List ℚ × ℕ × ℕ)) :=
  let grid_real := getRealGridSize grid e
  let grid_elements := getGridElements grid_real
  let new_edges_list := getEdgesForGrid e grid_real
  (mapOption
      (fun ne => getMeanSpectrumFromRectangle image mask wavelengths bbl ne mode)
      new_edges_list).bind
    (fun spectra_list =>
      if spectra_list.length = 0 then none
      else if grid_elements.length ≠ spectra_list.length then none
      else some (List.zipWith (fun s el => (s.2, el)) spectra_list grid_elements))

/-- One row of the final zone table: the calibrated usable-band values (one
column per usable wavelength) plus the three label columns
`GridElement_Row`, `GridElement_Column` and `zone`. -/
structure ZoneRow where
  values : List ℚ
  grid_row : ℕ
  grid_col : ℕ
  zone : String
deriving DecidableEq, Repr

/-- `getMultipleSpectra` (lines 71-110): spectralon spectrum of the `"spec"`
rectangle in `max10` mode, per-zone grid spectra in `median` mode tagged with
the zone name, calibration of every row against the spectralon with factor
`0.95 = 19/20`, concatenation over the zones (`pd.concat` of an empty list
raises, hence `none` for an empty zone list). -/
def getMultipleSpectra (image : ℕ → ℕ → ℕ → ℚ) (mask : Option (ℕ → ℕ → ℕ))
    (wavelengths : List ℚ) (bbl : List ℤ) (grid : Option (ℕ × ℕ))
    (positions : String → Edges) (zone_list : List String) :
    Option (List ZoneRow) :=
  (getMeanSpectrumFromRectangle image mask wavelengths bbl (positions "spec")
      AggMode.max10).bind
    (fun df_spectralon =>
      if zone_list.isEmpty then none
      else
        (mapOption (fun zone =>
            (getMeanSpectraFromSquareGrid image mask wavelengths bbl grid
                (positions zone) AggMode.median).map
              (fun rows => rows.map (fun r =>
                ZoneRow.mk (getCalibratedSpectrum r.1 df_spectralon.2 (19/20))
                  r.2.1 r.2.2 zone)))
          zone_list).map
        (fun tables => tables.flatten))

/-! ## Helper lemmas -/

theorem mapOption_eq_some_map {α β : Type} (f : α → Option β) (g : α → β) :
    ∀ l : List α, (∀ a ∈ l, f a = some (g a)) → mapOption f l = some (l.map g) := by
  intro l
  induction l with
  | nil => intro _; rfl
  | cons a as ih =>
      intro h
      have ha := h a (List.mem_cons_self a as)
      have hrest := ih (fun x hx => h x (List.mem_cons_of_mem a hx))
      simp [mapOption, ha, hrest]

theorem removeBadBands_eq_filter :
    ∀ (s w : List ℚ) (b : List ℤ), s.length = b.length → w.length = b.length →
      removeBadBands s w b =
        (((w.zip b).filter (fun p => p.2 = 1)).map Prod.fst,
         ((s.zip b).filter (fun p => p.2 = 1)).map Prod.fst) := by
  intro s
  induction s with
  | nil =>
      intro w b hs hw
      cases b with
      | nil =>
          cases w with
          | nil => rfl
          | cons _ _ => simp at hw
      | cons _ _ => simp at hs
  | cons x xs ih =>
      intro w b hs hw
      cases b with
      | nil => simp at hs
      | cons b0 bs =>
          cases w with
          | nil => simp at hw
          | cons w0 ws =>
              have hs' : xs.length = bs.length := by simpa using hs
              have hw' : ws.length = bs.length := by simpa using hw
              by_cases hb : b0 = 1
              · simp [removeBadBands, hb, ih ws bs hs' hw', List.filter_cons]
              · simp [removeBadBands, hb, ih ws bs hs' hw', List.filter_cons]

theorem zip_filter_snd_length :
    ∀ (w : List ℚ) (b : List ℤ), w.length = b.length →
      ((w.zip b).filter (fun p => p.2 = 1)).length =
        (b.filter (fun x => x = 1)).length := by
  intro w
  induction w with
  | nil =>
      intro b h
      cases b with
      | nil => rfl
      | cons _ _ => simp at h
  | cons x xs ih =>
      intro b h
      cases b with
      | nil => simp at h
      | cons b0 bs =>
          have h' : xs.length = bs.length := by simpa using h
          by_cases hb : b0 = 1 <;> simp [List.filter_cons, hb, ih bs h']

theorem removeBadBands_lengths (s w : List ℚ) (b : List ℤ)
    (hs : s.length = b.length) (hw : w.length = b.length) :
    (removeBadBands s w b).1.length = (b.filter (fun x => x = 1)).length ∧
    (removeBadBands s w b).2.length = (b.filter (fun x => x = 1)).length := by
  rw [removeBadBands_eq_filter s w b hs hw]
  constructor
  · simp [zip_filter_snd_length w b hw]
  · simp [zip_filter_snd_length s b hs]

theorem aggregate_max10_of_le_ten (roi : List ℚ) (h : roi.length ≤ 10) :
    aggregate AggMode.max10 roi = some (listMean roi) := by
  have hdrop : roi.length - 10 = 0 := Nat.sub_eq_zero_of_le h
  have hperm : List.Perm (npSortAsc roi) roi := List.perm_insertionSort _ roi
  simp [aggregate, hdrop, listMean, hperm.sum_eq, hperm.length_eq]

theorem length_flatMap_const {α β : Type} (l : List α) (f : α → List β) (k : ℕ)
    (h : ∀ a ∈ l, (f a).length = k) : (l.flatMap f).length = l.length * k := by
  induction l with
  | nil => simp
  | cons a as ih =>
      have h1 := h a (List.mem_cons_self a as)
      have h2 := ih (fun x hx => h x (List.mem_cons_of_mem a hx))
      simp [List.flatMap_cons, h1, h2]
      ring

theorem getEdgesForGrid_eq (e : Edges) (g1 g2 : ℕ) :
    getEdgesForGrid e (g1, g2) =
      (List.range (gridRowCount e g1)).flatMap (fun i =>
        (List.range (gridColCount e g2)).map (fun j =>
          Edges.mk (e.row_start + gridCellHeight e g1 * i)
            (e.row_start + gridCellHeight e g1 * i + gridCellHeight e g1)
            (e.col_start + gridCellWidth e g2 * j)
            (e.col_start + gridCellWidth e g2 * j + gridCellWidth e g2))) := by
  simp only [getEdgesForGrid, List.flatMap_map, List.map_map]
  rfl

theorem mem_getEdgesForGrid {e : Edges} {g1 g2 : ℕ} {sub : Edges} :
    sub ∈ getEdgesForGrid e (g1, g2) ↔
      ∃ i < gridRowCount e g1, ∃ j < gridColCount e g2,
        sub = Edges.mk (e.row_start + gridCellHeight e g1 * i)
          (e.row_start + gridCellHeight e g1 * i + gridCellHeight e g1)
          (e.col_start + gridCellWidth e g2 * j)
          (e.col_start + gridCellWidth e g2 * j + gridCellWidth e g2) := by
  rw [getEdgesForGrid_eq]
  simp only [List.mem_flatMap, List.mem_map, List.mem_range]
  constructor
  · rintro ⟨i, hi, j, hj, rfl⟩
    exact ⟨i, hi, j, hj, rfl⟩
  · rintro ⟨i, hi, j, hj, rfl⟩
    exact ⟨i, hi, j, hj, rfl⟩

theorem le_div_div_self (x g : ℕ) (h : 0 < x / g) : g ≤ x / (x / g) := by
  rw [Nat.le_div_iff_mul_le h]
  calc g * (x / g) = x / g * g := Nat.mul_comm _ _
    _ ≤ x := Nat.div_mul_le_self x g

theorem mul_add_self_le_of_lt_div (x h i : ℕ) (hi : i < x / h) :
    h * i + h ≤ x := by
  have h1 : i + 1 ≤ x / h := hi
  have h2 : h * (i + 1) ≤ h * (x / h) := Nat.mul_le_mul_left h h1
  have h3 : h * (x / h) ≤ x := by
    calc h * (x / h) = x / h * h := Nat.mul_comm _ _
      _ ≤ x := Nat.div_mul_le_self x h
  calc h * i + h = h * (i + 1) := by ring
    _ ≤ x := le_trans h2 h3

theorem pairwise_flatMap_of {α β : Type} {R : β → β → Prop} {f : α → List β} :
    ∀ {l : List α}, (∀ a ∈ l, (f a).Pairwise R) →
      l.Pairwise (fun a b => ∀ x ∈ f a, ∀ y ∈ f b, R x y) →
      (l.flatMap f).Pairwise R := by
  intro l
  induction l with
  | nil => intro _ _; simp
  | cons a as ih =>
      intro hall hpw
      rw [List.flatMap_cons, List.pairwise_append]
      rcases List.pairwise_cons.mp hpw with ⟨hhead, htail⟩
      refine ⟨hall a (List.mem_cons_self a as),
        ih (fun x hx => hall x (List.mem_cons_of_mem a hx)) htail, ?_⟩
      intro x hx y hy
      rcases List.mem_flatMap.mp hy with ⟨b, hb, hyb⟩
      exact hhead b hb x hx y hyb

theorem flatMap_congr_fun {α β : Type} (l : List α) (f g : α → List β)
    (h : ∀ a ∈ l, f a = g a) : l.flatMap f = l.flatMap g := by
  induction l with
  | nil => rfl
  | cons a as ih =>
      simp [List.flatMap_cons, h a (List.mem_cons_self a as),
        ih (fun x hx => h x (List.mem_cons_of_mem a hx))]

theorem filter_flatMap_comm {α β : Type} (l : List α) (f : α → List β)
    (p : β → Bool) :
    (l.flatMap f).filter p = l.flatMap (fun a => (f a).filter p) := by
  induction l with
  | nil => rfl
  | cons a as ih => simp [List.flatMap_cons, List.filter_append, ih]

theorem filterMap_if_eq_filter_map {α β : Type} (P : α → Prop) [DecidablePred P]
    (g : α → β) :
    ∀ l : List α, l.filterMap (fun a => if P a then none else some (g a)) =
      (l.filter (fun a => ¬ P a)).map g := by
  intro l
  induction l with
  | nil => rfl
  | cons a as ih =>
      by_cases h : P a <;> simp [List.filterMap_cons, List.filter_cons, h, ih]

theorem getCalibratedSpectrum_getD :
    ∀ (soil spectralon : List ℚ) (f : ℚ) (i : ℕ), i < soil.length →
      i < spectralon.length →
      (getCalibratedSpectrum soil spectralon f).getD i 0 =
        soil.getD i 0 / spectralon.getD i 0 * f := by
  intro soil
  induction soil with
  | nil => intro sp f i hi _; simp at hi
  | cons x xs ih =>
      intro sp f i hi hsp
      cases sp with
      | nil => simp at hsp
      | cons y ys =>
          cases i with
          | zero => simp [getCalibratedSpectrum]
          | succ n =>
              have h1 : n < xs.length := by simpa using hi
              have h2 : n < ys.length := by simpa using hsp
              simpa [getCalibratedSpectrum] using ih ys f n h1 h2

theorem filterMap_some_eq_map {α β : Type} (g : α → β) :
    ∀ l : List α, l.filterMap (fun a => some (g a)) = l.map g := by
  intro l
  induction l with
  | nil => rfl
  | cons a as ih => simp [List.filterMap_cons, ih]

/-! ## Claims -/

/-- C1 (amended): in `max10` mode, a region with exactly 10 available pixels
yields the mean of all 10 values; a region with fewer than 10 (but at least
one) available pixels raises no error — `np.sort(roi)[-10:]` is the whole
selection and the result is the mean of all available pixel values.  (The
claimed `InsufficientPixelsError` does not exist in the code; see the
counterexample `max10_three_pixels_returns_value`.) -/
theorem max10_small_region_mean (image : ℕ → ℕ → ℕ → ℚ)
    (mask : Option (ℕ → ℕ → ℕ)) (e : Edges) (band : ℕ)
    (_h1 : 1 ≤ (roiPixels image mask e band).length)
    (h2 : (roiPixels image mask e band).length ≤ 10) :
    aggregate AggMode.max10 (roiPixels image mask e band) =
      some (listMean (roiPixels image mask e band)) :=
  aggregate_max10_of_le_ten _ h2

/-- C1 witness: a rectangle with exactly 10 pixels and no mask. -/
theorem max10_small_region_mean_witness :
    1 ≤ (roiPixels (fun _ _ _ => (0 : ℚ)) none ⟨0, 2, 0, 5⟩ 0).length ∧
    (roiPixels (fun _ _ _ => (0 : ℚ)) none ⟨0, 2, 0, 5⟩ 0).length ≤ 10 ∧
    aggregate AggMode.max10
        (roiPixels (fun _ _ _ => (0 : ℚ)) none ⟨0, 2, 0, 5⟩ 0) =
      some (listMean (roiPixels (fun _ _ _ => (0 : ℚ)) none ⟨0, 2, 0, 5⟩ 0)) :=
  ⟨by decide, by decide,
    max10_small_region_mean _ _ _ _ (by decide) (by decide)⟩

/-- C1 counterexample: a region with only 3 available pixels (values
`0, 1, 2`).  The claim says `max10` aggregation must fail with
`InsufficientPixelsError`; the code instead returns the value `1`, the mean
of all three pixels, raising nothing. -/
theorem max10_three_pixels_returns_value :
    aggregate AggMode.max10
      (roiPixels (fun r c _ => (r : ℚ) + c) none ⟨0, 1, 0, 3⟩ 0) = some 1 := by
  norm_num [aggregate, roiPixels, pyRange, List.range', npSortAsc, listMean,
    List.insertionSort, List.orderedInsert, List.filterMap_cons]

/-- C4: on the rectangle `[10,15,5,8]`, grid `(1,1)` yields exactly the input
rectangle, and grid `(2,2)` yields exactly the six sub-rectangles
`[10,12,5,6], [10,12,6,7], [10,12,7,8], [12,14,5,6], [12,14,6,7],
[12,14,7,8]` in row-major order. -/
theorem getEdgesForGrid_example_grids :
    getEdgesForGrid ⟨10, 15, 5, 8⟩ (1, 1) = [⟨10, 15, 5, 8⟩] ∧
    getEdgesForGrid ⟨10, 15, 5, 8⟩ (2, 2) =
      [⟨10, 12, 5, 6⟩, ⟨10, 12, 6, 7⟩, ⟨10, 12, 7, 8⟩,
       ⟨12, 14, 5, 6⟩, ⟨12, 14, 6, 7⟩, ⟨12, 14, 7, 8⟩] := by
  constructor <;> decide

/-- C5: for equal-length soil and reference spectra, every band of the
calibrated spectrum equals `(soil / reference) * factor`, and the length is
preserved. -/
theorem getCalibratedSpectrum_pointwise (soil spectralon : List ℚ) (f : ℚ)
    (hlen : soil.length = spectralon.length) :
    (getCalibratedSpectrum soil spectralon f).length = soil.length ∧
    ∀ i, i < soil.length →
      (getCalibratedSpectrum soil spectralon f).getD i 0 =
        soil.getD i 0 / spectralon.getD i 0 * f := by
  constructor
  · simp [getCalibratedSpectrum, hlen]
  · intro i hi
    exact getCalibratedSpectrum_getD soil spectralon f i hi (hlen ▸ hi)

/-- C5 witness: soil `[10, 20]`, reference `[20, 20]`, factor `0.95 = 19/20`
gives `[0.475, 0.95] = [19/40, 19/20]`. -/
theorem getCalibratedSpectrum_pointwise_witness :
    getCalibratedSpectrum [10, 20] [20, 20] (19/20) = [19/40, 19/20] ∧
    (([10, 20] : List ℚ).length = ([20, 20] : List ℚ).length ∧
      ((getCalibratedSpectrum [10, 20] [20, 20] (19/20)).length =
          ([10, 20] : List ℚ).length ∧
        ∀ i, i < ([10, 20] : List ℚ).length →
          (getCalibratedSpectrum [10, 20] [20, 20] (19/20)).getD i 0 =
            ([10, 20] : List ℚ).getD i 0 / ([20, 20] : List ℚ).getD i 0 *
              (19/20))) :=
  ⟨by norm_num [getCalibratedSpectrum],
    rfl, getCalibratedSpectrum_pointwise [10, 20] [20, 20] (19/20) rfl⟩

/-- C6: for equal-length wavelength and flag sequences, the filtering step
(`removeBadBands`) keeps the band at index `i` iff its flag equals `1`; the
output is the in-order sublist of flagged bands (no reordering, no
deduplication), so the output length is the number of flags equal to 1. -/
theorem removeBadBands_keeps_flag_one (w : List ℚ) (b : List ℤ)
    (hlen : w.length = b.length) :
    (removeBadBands w w b).1.length = (b.filter (fun x => x = 1)).length ∧
    (removeBadBands w w b).1 =
      ((w.zip b).filter (fun p => p.2 = 1)).map Prod.fst ∧
    (removeBadBands w w b).2 =
      ((w.zip b).filter (fun p => p.2 = 1)).map Prod.fst := by
  have h := removeBadBands_eq_filter w w b hlen hlen
  refine ⟨?_, ?_, ?_⟩
  · rw [h]
    simp [zip_filter_snd_length w b hlen]
  · rw [h]
  · rw [h]

/-- C6 witness: wavelengths `[5, 7, 9]` with flags `[1, 0, 1]`. -/
theorem removeBadBands_keeps_flag_one_witness :
    ([5, 7, 9] : List ℚ).length = ([1, 0, 1] : List ℤ).length ∧
    ((removeBadBands [5, 7, 9] [5, 7, 9] [1, 0, 1]).1.length =
        (([1, 0, 1] : List ℤ).filter (fun x => x = 1)).length ∧
      (removeBadBands [5, 7, 9] [5, 7, 9] [1, 0, 1]).1 =
        ((([5, 7, 9] : List ℚ).zip ([1, 0, 1] : List ℤ)).filter
          (fun p => p.2 = 1)).map Prod.fst ∧
      (removeBadBands [5, 7, 9] [5, 7, 9] [1, 0, 1]).2 =
        ((([5, 7, 9] : List ℚ).zip ([1, 0, 1] : List ℤ)).filter
          (fun p => p.2 = 1)).map Prod.fst) :=
  ⟨rfl, removeBadBands_keeps_flag_one [5, 7, 9] [1, 0, 1] rfl⟩

/-- C7: for a wavelength sequence of exactly 139 entries (with equal-length
flags) the construction-time band filter equals the composition that first
discards index 0 of both sequences and then filters by flag; for any other
length both sequences are passed through to the filtering unchanged. -/
theorem bandFilter_139_sentinel (w : List ℚ) (b : List ℤ)
    (hlen : w.length = b.length) :
    (w.length = 139 → bandFilter w b = some (dropHeadThenFilter w b)) ∧
    (w.length ≠ 139 → bandFilter w b = some (removeBadBands w w b)) := by
  have h1 : ¬ (w.length ≠ b.length) := by simp [hlen]
  constructor
  · intro h139
    simp only [bandFilter, validateWavelengths, if_neg h1, if_pos h139,
      Option.map_some']
    rfl
  · intro h139
    simp only [bandFilter, validateWavelengths, if_neg h1, if_neg h139,
      Option.map_some']

/-- C7 witness: a 139-entry wavelength list. -/
theorem bandFilter_139_sentinel_witness :
    (List.replicate 139 (0 : ℚ)).length = (List.replicate 139 (0 : ℤ)).length ∧
    (((List.replicate 139 (0 : ℚ)).length = 139 →
        bandFilter (List.replicate 139 0) (List.replicate 139 0) =
          some (dropHeadThenFilter (List.replicate 139 0)
            (List.replicate 139 0))) ∧
      ((List.replicate 139 (0 : ℚ)).length ≠ 139 →
        bandFilter (List.replicate 139 0) (List.replicate 139 0) =
          some (removeBadBands (List.replicate 139 0) (List.replicate 139 0)
            (List.replicate 139 0)))) :=
  ⟨by simp, bandFilter_139_sentinel _ _ (by simp)⟩

/-- C8: whenever wavelength and flag sequences differ in length, the band
filter fails (`ValueError`, the code's length-mismatch error) and never
returns a filtered result. -/
theorem bandFilter_length_mismatch (w : List ℚ) (b : List ℤ)
    (hlen : w.length ≠ b.length) : bandFilter w b = none := by
  simp only [bandFilter, validateWavelengths, if_pos hlen, Option.map_none']

/-- C8 witness: one wavelength, zero flags. -/
theorem bandFilter_length_mismatch_witness :
    ([1] : List ℚ).length ≠ ([] : List ℤ).length ∧
    bandFilter [1] [] = none :=
  ⟨by decide, bandFilter_length_mismatch [1] [] (by decide)⟩

/-- C9: the pixel values collected for aggregation are exactly the values at
the rectangle's pixels whose mask value differs from 1 (in row-major order),
and all of the rectangle's pixels when no mask is supplied. -/
theorem roiPixels_mask_characterization (image : ℕ → ℕ → ℕ → ℚ)
    (m : ℕ → ℕ → ℕ) (e : Edges) (band : ℕ) :
    roiPixels image (some m) e band =
      (((pyRange e.row_start e.row_end).flatMap (fun r =>
          (pyRange e.col_start e.col_end).map (fun c => (r, c)))).filter
        (fun p => m p.1 p.2 ≠ 1)).map (fun p => image p.1 p.2 band) ∧
    roiPixels image none e band =
      ((pyRange e.row_start e.row_end).flatMap (fun r =>
          (pyRange e.col_start e.col_end).map (fun c => (r, c)))).map
        (fun p => image p.1 p.2 band) := by
  constructor
  · rw [filter_flatMap_comm, List.map_flatMap]
    refine flatMap_congr_fun _ _ _ ?_
    intro row _
    rw [List.filter_map, List.map_map]
    rw [filterMap_if_eq_filter_map (fun col => m row col = 1)
      (fun col => image row col band)]
    rfl
  · rw [List.map_flatMap]
    refine flatMap_congr_fun _ _ _ ?_
    intro row _
    rw [filterMap_some_eq_map (fun col => image row col band), List.map_map]
    rfl

theorem interval_disjoint_of_lt {s h i i' p : ℕ} (hlt : i < i')
    (_h1 : s + h * i ≤ p) (h2 : p < s + h * i + h) (h3 : s + h * i' ≤ p) :
    False := by
  have hmul : h * (i + 1) ≤ h * i' :=
    Nat.mul_le_mul_left h (Nat.succ_le_of_lt hlt)
  have heq : h * i + h = h * (i + 1) := by ring
  linarith

/-- C3 (amended): along each axis the sub-rectangle starts are
`start + i * cell_size` for `i` in `0 .. floor(extent/cell_size) - 1`
(first conjunct); `floor(extent/cell_size)` is at least — never fewer than —
the nominal effective count, so a non-divisible extent can only produce
*more* cells than nominal (second/third conjunct); and the remainder pixels
at the high end of the rectangle, the rows and columns at or beyond
`start + cell_size * floor(extent/cell_size)` (which is at most the high
edge), are excluded from every sub-rectangle (remaining conjuncts). -/
theorem getEdgesForGrid_starts_count_remainder (e : Edges) (g1 g2 : ℕ)
    (hh : 0 < gridCellHeight e g1) (hw : 0 < gridCellWidth e g2) :
    getEdgesForGrid e (g1, g2) =
      (List.range (gridRowCount e g1)).flatMap (fun i =>
        (List.range (gridColCount e g2)).map (fun j =>
          Edges.mk (e.row_start + gridCellHeight e g1 * i)
            (e.row_start + gridCellHeight e g1 * i + gridCellHeight e g1)
            (e.col_start + gridCellWidth e g2 * j)
            (e.col_start + gridCellWidth e g2 * j + gridCellWidth e g2))) ∧
    g1 ≤ gridRowCount e g1 ∧ g2 ≤ gridColCount e g2 ∧
    e.row_start + gridCellHeight e g1 * gridRowCount e g1 ≤ e.row_end ∧
    e.col_start + gridCellWidth e g2 * gridColCount e g2 ≤ e.col_end ∧
    ∀ sub ∈ getEdgesForGrid e (g1, g2), ∀ r c, pixelIn sub r c →
      r < e.row_start + gridCellHeight e g1 * gridRowCount e g1 ∧
      c < e.col_start + gridCellWidth e g2 * gridColCount e g2 := by
  have hthr : gridCellHeight e g1 * gridRowCount e g1 ≤
      e.row_end - e.row_start := by
    rw [Nat.mul_comm]
    exact Nat.div_mul_le_self _ _
  have hthc : gridCellWidth e g2 * gridColCount e g2 ≤
      e.col_end - e.col_start := by
    rw [Nat.mul_comm]
    exact Nat.div_mul_le_self _ _
  have her : 0 < e.row_end - e.row_start :=
    lt_of_lt_of_le hh (Nat.div_le_self _ _)
  have hec : 0 < e.col_end - e.col_start :=
    lt_of_lt_of_le hw (Nat.div_le_self _ _)
  refine ⟨getEdgesForGrid_eq e g1 g2, le_div_div_self _ _ hh,
    le_div_div_self _ _ hw, ?_, ?_, ?_⟩
  · calc e.row_start + gridCellHeight e g1 * gridRowCount e g1
        ≤ e.row_start + (e.row_end - e.row_start) := Nat.add_le_add_left hthr _
      _ = e.row_end := by omega
  · calc e.col_start + gridCellWidth e g2 * gridColCount e g2
        ≤ e.col_start + (e.col_end - e.col_start) := Nat.add_le_add_left hthc _
      _ = e.col_end := by omega
  · intro sub hsub r c hpix
    rcases mem_getEdgesForGrid.mp hsub with ⟨i, hi, j, hj, rfl⟩
    simp only [pixelIn] at hpix
    obtain ⟨-, hr2, -, hc2⟩ := hpix
    have hri : gridCellHeight e g1 * (i + 1) ≤
        gridCellHeight e g1 * gridRowCount e g1 :=
      Nat.mul_le_mul_left _ (Nat.succ_le_of_lt hi)
    have hci : gridCellWidth e g2 * (j + 1) ≤
        gridCellWidth e g2 * gridColCount e g2 :=
      Nat.mul_le_mul_left _ (Nat.succ_le_of_lt hj)
    have hr3 : gridCellHeight e g1 * i + gridCellHeight e g1 =
        gridCellHeight e g1 * (i + 1) := by ring
    have hc3 : gridCellWidth e g2 * j + gridCellWidth e g2 =
        gridCellWidth e g2 * (j + 1) := by ring
    constructor <;> linarith

/-- C3 counterexample: on rectangle `[10,15,5,8]` with effective grid
`(2,2)` the column extent 3 is not evenly divisible by 2; the partition
produces 6 sub-rectangles — *more* than the nominal `2 * 2 = 4`, not fewer
as the claim states. -/
theorem getEdgesForGrid_more_cells_than_nominal :
    (getEdgesForGrid ⟨10, 15, 5, 8⟩ (2, 2)).length = 6 ∧
    ¬ (getEdgesForGrid ⟨10, 15, 5, 8⟩ (2, 2)).length < 2 * 2 := by
  constructor <;> decide

/-- C3 witness: rectangle `[10,15,5,8]` with effective grid `(2,2)`. -/
theorem getEdgesForGrid_starts_count_remainder_witness :
    0 < gridCellHeight ⟨10, 15, 5, 8⟩ 2 ∧ 0 < gridCellWidth ⟨10, 15, 5, 8⟩ 2 ∧
    (getEdgesForGrid ⟨10, 15, 5, 8⟩ (2, 2) =
      (List.range (gridRowCount ⟨10, 15, 5, 8⟩ 2)).flatMap (fun i =>
        (List.range (gridColCount ⟨10, 15, 5, 8⟩ 2)).map (fun j =>
          Edges.mk (10 + gridCellHeight ⟨10, 15, 5, 8⟩ 2 * i)
            (10 + gridCellHeight ⟨10, 15, 5, 8⟩ 2 * i +
              gridCellHeight ⟨10, 15, 5, 8⟩ 2)
            (5 + gridCellWidth ⟨10, 15, 5, 8⟩ 2 * j)
            (5 + gridCellWidth ⟨10, 15, 5, 8⟩ 2 * j +
              gridCellWidth ⟨10, 15, 5, 8⟩ 2))) ∧
    2 ≤ gridRowCount ⟨10, 15, 5, 8⟩ 2 ∧ 2 ≤ gridColCount ⟨10, 15, 5, 8⟩ 2 ∧
    10 + gridCellHeight ⟨10, 15, 5, 8⟩ 2 * gridRowCount ⟨10, 15, 5, 8⟩ 2 ≤ 15 ∧
    5 + gridCellWidth ⟨10, 15, 5, 8⟩ 2 * gridColCount ⟨10, 15, 5, 8⟩ 2 ≤ 8 ∧
    ∀ sub ∈ getEdgesForGrid ⟨10, 15, 5, 8⟩ (2, 2), ∀ r c, pixelIn sub r c →
      r < 10 + gridCellHeight ⟨10, 15, 5, 8⟩ 2 * gridRowCount ⟨10, 15, 5, 8⟩ 2 ∧
      c < 5 + gridCellWidth ⟨10, 15, 5, 8⟩ 2 * gridColCount ⟨10, 15, 5, 8⟩ 2) :=
  ⟨by decide, by decide,
    getEdgesForGrid_starts_count_remainder ⟨10, 15, 5, 8⟩ 2 2
      (by decide) (by decide)⟩

/-- C10: for a rectangle with positive row and column extents and cell
height/width at least 1, every sub-rectangle is contained in the input
rectangle, every sub-rectangle has exactly height `cell height` and width
`cell width`, and distinct sub-rectangles are pairwise disjoint as pixel
sets. -/
theorem getEdgesForGrid_tiling_invariant (e : Edges) (g1 g2 : ℕ)
    (hre : e.row_start < e.row_end) (hce : e.col_start < e.col_end)
    (_hh : 0 < gridCellHeight e g1) (_hw : 0 < gridCellWidth e g2) :
    (∀ sub ∈ getEdgesForGrid e (g1, g2),
      (e.row_start ≤ sub.row_start ∧ sub.row_end ≤ e.row_end ∧
        e.col_start ≤ sub.col_start ∧ sub.col_end ≤ e.col_end) ∧
      sub.row_end - sub.row_start = gridCellHeight e g1 ∧
      sub.col_end - sub.col_start = gridCellWidth e g2) ∧
    List.Pairwise (fun s1 s2 => ∀ r c, ¬ (pixelIn s1 r c ∧ pixelIn s2 r c))
      (getEdgesForGrid e (g1, g2)) := by
  constructor
  · intro sub hsub
    rcases mem_getEdgesForGrid.mp hsub with ⟨i, hi, j, hj, rfl⟩
    have hrow := mul_add_self_le_of_lt_div (e.row_end - e.row_start)
      (gridCellHeight e g1) i hi
    have hcol := mul_add_self_le_of_lt_div (e.col_end - e.col_start)
      (gridCellWidth e g2) j hj
    refine ⟨⟨Nat.le_add_right _ _, ?_, Nat.le_add_right _ _, ?_⟩, ?_, ?_⟩
    · calc e.row_start + gridCellHeight e g1 * i + gridCellHeight e g1
          = e.row_start + (gridCellHeight e g1 * i + gridCellHeight e g1) := by
            ring
        _ ≤ e.row_start + (e.row_end - e.row_start) := Nat.add_le_add_left hrow _
        _ = e.row_end := by omega
    · calc e.col_start + gridCellWidth e g2 * j + gridCellWidth e g2
          = e.col_start + (gridCellWidth e g2 * j + gridCellWidth e g2) := by
            ring
        _ ≤ e.col_start + (e.col_end - e.col_start) := Nat.add_le_add_left hcol _
        _ = e.col_end := by omega
    · exact Nat.add_sub_cancel_left _ _
    · exact Nat.add_sub_cancel_left _ _
  · rw [getEdgesForGrid_eq]
    apply pairwise_flatMap_of
    · intro i _
      refine (List.pairwise_lt_range _).map _ ?_
      intro j j' hjj
      intro r c hboth
      simp only [pixelIn] at hboth
      exact interval_disjoint_of_lt hjj hboth.1.2.2.1 hboth.1.2.2.2
        hboth.2.2.2.1
    · refine (List.pairwise_lt_range _).imp ?_
      intro i i' hii
      intro x hx y hy r c hboth
      rcases List.mem_map.mp hx with ⟨j, _, rfl⟩
      rcases List.mem_map.mp hy with ⟨j', _, rfl⟩
      simp only [pixelIn] at hboth
      exact interval_disjoint_of_lt hii hboth.1.1 hboth.1.2.1 hboth.2.1

/-- C10 witness: rectangle `[10,15,5,8]` with effective grid `(2,2)`. -/
theorem getEdgesForGrid_tiling_invariant_witness :
    (10 : ℕ) < 15 ∧ (5 : ℕ) < 8 ∧
    0 < gridCellHeight ⟨10, 15, 5, 8⟩ 2 ∧ 0 < gridCellWidth ⟨10, 15, 5, 8⟩ 2 ∧
    ((∀ sub ∈ getEdgesForGrid ⟨10, 15, 5, 8⟩ (2, 2),
        ((10 : ℕ) ≤ sub.row_start ∧ sub.row_end ≤ 15 ∧
          (5 : ℕ) ≤ sub.col_start ∧ sub.col_end ≤ 8) ∧
        sub.row_end - sub.row_start = gridCellHeight ⟨10, 15, 5, 8⟩ 2 ∧
        sub.col_end - sub.col_start = gridCellWidth ⟨10, 15, 5, 8⟩ 2) ∧
      List.Pairwise (fun s1 s2 => ∀ r c, ¬ (pixelIn s1 r c ∧ pixelIn s2 r c))
        (getEdgesForGrid ⟨10, 15, 5, 8⟩ (2, 2))) :=
  ⟨by decide, by decide, by decide, by decide,
    getEdgesForGrid_tiling_invariant ⟨10, 15, 5, 8⟩ 2 2
      (by decide) (by decide) (by decide) (by decide)⟩

theorem mem_zipWith {α β γ : Type} {f : α → β → γ} :
    ∀ {as : List α} {bs : List β} {x : γ}, x ∈ List.zipWith f as bs →
      ∃ a b, a ∈ as ∧ b ∈ bs ∧ x = f a b := by
  intro as
  induction as with
  | nil => intro bs x h; simp at h
  | cons a as' ih =>
      intro bs x h
      cases bs with
      | nil => simp at h
      | cons b bs' =>
          rw [List.zipWith_cons_cons] at h
          rcases List.mem_cons.mp h with rfl | h'
          · exact ⟨a, b, List.mem_cons_self _ _, List.mem_cons_self _ _, rfl⟩
          · rcases ih h' with ⟨a', b', ha, hb, rfl⟩
            exact ⟨a', b', List.mem_cons_of_mem _ ha,
              List.mem_cons_of_mem _ hb, rfl⟩

theorem mapOption_flatten_shape {α β : Type} (f : α → Option (List β))
    (G : α → ℕ) (P : β → Prop) :
    ∀ l : List α,
      (∀ a ∈ l, ∃ tab, f a = some tab ∧ tab.length = G a ∧ ∀ r ∈ tab, P r) →
      ∃ ts, mapOption f l = some ts ∧
        ts.flatten.length = (l.map G).sum ∧ ∀ r ∈ ts.flatten, P r := by
  intro l
  induction l with
  | nil => exact fun _ => ⟨[], rfl, by simp, by simp⟩
  | cons a as ih =>
      intro h
      obtain ⟨tab, hf, hlen, hP⟩ := h a (List.mem_cons_self a as)
      obtain ⟨ts, hts, hlen2, hP2⟩ :=
        ih (fun x hx => h x (List.mem_cons_of_mem a hx))
      refine ⟨tab :: ts, by simp [mapOption, hf, hts], ?_, ?_⟩
      · simp [List.flatten_cons, hlen, hlen2]
      · intro r hr
        rw [List.flatten_cons] at hr
        rcases List.mem_append.mp hr with h1 | h2
        · exact hP r h1
        · exact hP2 r h2

theorem getMeanSpectrumFromRectangle_eq_of_total (image : ℕ → ℕ → ℕ → ℚ)
    (mask : Option (ℕ → ℕ → ℕ)) (w : List ℚ) (b : List ℤ) (e : Edges)
    (mode : AggMode) (g : List ℚ → ℚ)
    (hg : ∀ roi, aggregate mode roi = some (g roi)) :
    getMeanSpectrumFromRectangle image mask w b e mode =
      some (removeBadBands
        ((List.range w.length).map (fun i => g (roiPixels image mask e i)))
        w b) := by
  simp only [getMeanSpectrumFromRectangle]
  rw [mapOption_eq_some_map _ (fun i => g (roiPixels image mask e i)) _
    (fun a _ => hg _)]
  rfl

theorem getMeanSpectrumFromRectangle_shape (image : ℕ → ℕ → ℕ → ℚ)
    (mask : Option (ℕ → ℕ → ℕ)) (w : List ℚ) (b : List ℤ) (e : Edges)
    (hwb : w.length = b.length) (mode : AggMode)
    (hmode : mode = AggMode.median ∨ mode = AggMode.max10) :
    ∃ pr, getMeanSpectrumFromRectangle image mask w b e mode = some pr ∧
      pr.1.length = (b.filter (fun x => x = 1)).length ∧
      pr.2.length = (b.filter (fun x => x = 1)).length := by
  have key : ∀ g : List ℚ → ℚ, (∀ roi, aggregate mode roi = some (g roi)) →
      ∃ pr, getMeanSpectrumFromRectangle image mask w b e mode = some pr ∧
        pr.1.length = (b.filter (fun x => x = 1)).length ∧
        pr.2.length = (b.filter (fun x => x = 1)).length := by
    intro g hg
    refine ⟨_, getMeanSpectrumFromRectangle_eq_of_total image mask w b e mode
      g hg, ?_, ?_⟩
    · exact (removeBadBands_lengths _ _ _ (by simp [hwb]) hwb).1
    · exact (removeBadBands_lengths _ _ _ (by simp [hwb]) hwb).2
  rcases hmode with rfl | rfl
  · exact key npMedian (fun _ => rfl)
  · exact key (fun roi => listMean ((npSortAsc roi).drop (roi.length - 10)))
      (fun _ => rfl)

theorem getEdgesForGrid_length (e : Edges) (g1 g2 : ℕ) :
    (getEdgesForGrid e (g1, g2)).length =
      gridRowCount e g1 * gridColCount e g2 := by
  rw [getEdgesForGrid_eq]
  rw [length_flatMap_const _ _ (gridColCount e g2) (fun a _ => by simp)]
  simp

theorem getCalibratedSpectrum_length (soil sp : List ℚ) (f : ℚ) :
    (getCalibratedSpectrum soil sp f).length = min soil.length sp.length := by
  simp [getCalibratedSpectrum]

theorem getMeanSpectraFromSquareGrid_shape (image : ℕ → ℕ → ℕ → ℚ)
    (mask : Option (ℕ → ℕ → ℕ)) (w : List ℚ) (b : List ℤ)
    (grid : Option (ℕ × ℕ)) (e : Edges) (g1 g2 : ℕ)
    (hG : getRealGridSize grid e = (g1, g2)) (hwb : w.length = b.length)
    (hg1 : 0 < g1) (hg2 : 0 < g2)
    (hr : gridRowCount e g1 = g1) (hc : gridColCount e g2 = g2) :
    ∃ rows, getMeanSpectraFromSquareGrid image mask w b grid e
        AggMode.median = some rows ∧
      rows.length = g1 * g2 ∧
      ∀ r ∈ rows, r.1.length = (b.filter (fun x => x = 1)).length := by
  have hmap := mapOption_eq_some_map
    (fun ne => getMeanSpectrumFromRectangle image mask w b ne AggMode.median)
    (fun ne => removeBadBands
      ((List.range w.length).map (fun i => npMedian (roiPixels image mask ne i)))
      w b)
    (getEdgesForGrid e (g1, g2))
    (fun ne _ => getMeanSpectrumFromRectangle_eq_of_total image mask w b ne
      AggMode.median npMedian (fun _ => rfl))
  have hlenmap : (((getEdgesForGrid e (g1, g2)).map
      (fun ne => removeBadBands ((List.range w.length).map
        (fun i => npMedian (roiPixels image mask ne i))) w b))).length =
      g1 * g2 := by
    simp [getEdgesForGrid_length, hr, hc]
  have hne : ¬ ((((getEdgesForGrid e (g1, g2)).map
      (fun ne => removeBadBands ((List.range w.length).map
        (fun i => npMedian (roiPixels image mask ne i))) w b))).length = 0) := by
    rw [hlenmap]
    exact (Nat.mul_pos hg1 hg2).ne'
  have hG00 : ¬ ((g1, g2) = ((0 : ℕ), (0 : ℕ))) := by
    intro h0
    rw [Prod.mk.injEq] at h0
    omega
  have helems : (getGridElements (g1, g2)).length = g1 * g2 := by
    rw [getGridElements, if_neg hG00]
    rw [length_flatMap_const _ _ g2 (fun a _ => by simp)]
    simp
  have hcondeq : ¬ ((getGridElements (g1, g2)).length ≠
      (((getEdgesForGrid e (g1, g2)).map
        (fun ne => removeBadBands ((List.range w.length).map
          (fun i => npMedian (roiPixels image mask ne i))) w b))).length) := by
    rw [helems, hlenmap]
    simp
  refine ⟨List.zipWith (fun s el => (s.2, el))
      ((getEdgesForGrid e (g1, g2)).map
        (fun ne => removeBadBands ((List.range w.length).map
          (fun i => npMedian (roiPixels image mask ne i))) w b))
      (getGridElements (g1, g2)), ?_, ?_, ?_⟩
  · simp only [getMeanSpectraFromSquareGrid, hG, hmap, Option.some_bind,
      if_neg hne, if_neg hcondeq]
  · rw [List.length_zipWith, hlenmap, helems, Nat.min_self]
  · intro r hr'
    obtain ⟨s, el, hs, _, rfl⟩ := mem_zipWith hr'
    obtain ⟨ne, _, rfl⟩ := List.mem_map.mp hs
    exact (removeBadBands_lengths _ _ _ (by simp [hwb]) hwb).2

/-- C2 (amended): provided that, for every zone and each axis, the number of
cells actually produced (`floor(extent / cell_size)`) equals the effective
grid count (and cells are at least one pixel, so the Python division does not
degenerate), the table returned by `getMultipleSpectra` has row count equal
to the sum over zones of (effective grid rows × effective grid columns), and
every row carries exactly one value per usable band — the table's columns
are the usable bands plus the 3 label columns (`GridElement_Row`,
`GridElement_Column`, `zone`), i.e. usable-band count + 3 columns.  (Without
the proviso no table is returned at all: the `GridElement_*` column
assignment raises a pandas length-mismatch `ValueError`; see the
counterexample `getMultipleSpectra_mismatch_no_table`.) -/
theorem getMultipleSpectra_table_shape (image : ℕ → ℕ → ℕ → ℚ)
    (mask : Option (ℕ → ℕ → ℕ)) (wavelengths : List ℚ) (bbl : List ℤ)
    (grid : Option (ℕ × ℕ)) (positions : String → Edges)
    (zone_list : List String)
    (hwb : wavelengths.length = bbl.length) (hz : zone_list ≠ [])
    (hcond : ∀ z ∈ zone_list,
      0 < (getRealGridSize grid (positions z)).1 ∧
      0 < (getRealGridSize grid (positions z)).2 ∧
      0 < gridCellHeight (positions z) (getRealGridSize grid (positions z)).1 ∧
      0 < gridCellWidth (positions z) (getRealGridSize grid (positions z)).2 ∧
      gridRowCount (positions z) (getRealGridSize grid (positions z)).1 =
        (getRealGridSize grid (positions z)).1 ∧
      gridColCount (positions z) (getRealGridSize grid (positions z)).2 =
        (getRealGridSize grid (positions z)).2) :
    ∃ t, getMultipleSpectra image mask wavelengths bbl grid positions
        zone_list = some t ∧
      t.length = (zone_list.map (fun z =>
        (getRealGridSize grid (positions z)).1 *
          (getRealGridSize grid (positions z)).2)).sum ∧
      ∀ r ∈ t, r.values.length = (bbl.filter (fun x => x = 1)).length := by
  obtain ⟨spr, hspr, hspr1, hspr2⟩ :=
    getMeanSpectrumFromRectangle_shape image mask wavelengths bbl
      (positions "spec") hwb AggMode.max10 (Or.inr rfl)
  have hznil : zone_list.isEmpty = false := by
    cases zone_list with
    | nil => exact absurd rfl hz
    | cons _ _ => rfl
  obtain ⟨ts, hts, htlen, htP⟩ := mapOption_flatten_shape
    (fun zone =>
      (getMeanSpectraFromSquareGrid image mask wavelengths bbl grid
          (positions zone) AggMode.median).map
        (fun rows => rows.map (fun r =>
          ZoneRow.mk (getCalibratedSpectrum r.1 spr.2 (19/20))
            r.2.1 r.2.2 zone)))
    (fun z => (getRealGridSize grid (positions z)).1 *
      (getRealGridSize grid (positions z)).2)
    (fun r => r.values.length = (bbl.filter (fun x => x = 1)).length)
    zone_list
    (by
      intro z hzmem
      obtain ⟨hg1, hg2, _, _, hrr, hcc⟩ := hcond z hzmem
      obtain ⟨rows, hrows, hrowslen, hrowsP⟩ :=
        getMeanSpectraFromSquareGrid_shape image mask wavelengths bbl grid
          (positions z) _ _ Prod.mk.eta.symm hwb hg1 hg2 hrr hcc
      refine ⟨rows.map (fun r =>
          ZoneRow.mk (getCalibratedSpectrum r.1 spr.2 (19/20))
            r.2.1 r.2.2 z),
        by simp only [hrows, Option.map_some'], by simp [hrowslen], ?_⟩
      intro r hrmem
      obtain ⟨r0, hr0, rfl⟩ := List.mem_map.mp hrmem
      have hv : (ZoneRow.mk (getCalibratedSpectrum r0.1 spr.2 (19/20))
          r0.2.1 r0.2.2 z).values = getCalibratedSpectrum r0.1 spr.2 (19/20) :=
        rfl
      rw [hv, getCalibratedSpectrum_length, hrowsP r0 hr0, hspr2,
        Nat.min_self])
  refine ⟨ts.flatten, ?_, htlen, htP⟩
  simp only [getMultipleSpectra, hspr, Option.some_bind, hznil,
    Bool.false_eq_true, if_false, hts, Option.map_some']

/-- C2 counterexample: one zone `"z"` with the resolvable rectangle
`[0,5,0,1]` (row extent 5) and grid `(3, 1)`.  The effective grid is
`(3, 1)` (nominal 3 rows), but the partition produces
`floor(5 / floor(5/3)) = 5` sub-rectangles, so the `GridElement_Row` column
assignment raises a pandas `ValueError` and `getMultipleSpectra` returns no
table at all — in particular not one with `3 = 3 × 1` rows as the claim
requires. -/
theorem getMultipleSpectra_mismatch_no_table :
    getMultipleSpectra (fun _ _ _ => (1 : ℚ)) none [1, 2] [1, 1]
      (some (3, 1)) (fun _ => ⟨0, 5, 0, 1⟩) ["z"] = none := rfl

/-- C2 witness: one zone with a 1×1 rectangle and grid `(1, 1)`, two usable
bands. -/
theorem getMultipleSpectra_table_shape_witness :
    ([1, 2] : List ℚ).length = ([1, 1] : List ℤ).length ∧
    (["a"] : List String) ≠ [] ∧
    (∀ z ∈ (["a"] : List String),
      0 < (getRealGridSize (some (1, 1)) ((fun _ => Edges.mk 0 1 0 1) z)).1 ∧
      0 < (getRealGridSize (some (1, 1)) ((fun _ => Edges.mk 0 1 0 1) z)).2 ∧
      0 < gridCellHeight ((fun _ => Edges.mk 0 1 0 1) z)
        (getRealGridSize (some (1, 1)) ((fun _ => Edges.mk 0 1 0 1) z)).1 ∧
      0 < gridCellWidth ((fun _ => Edges.mk 0 1 0 1) z)
        (getRealGridSize (some (1, 1)) ((fun _ => Edges.mk 0 1 0 1) z)).2 ∧
      gridRowCount ((fun _ => Edges.mk 0 1 0 1) z)
          (getRealGridSize (some (1, 1)) ((fun _ => Edges.mk 0 1 0 1) z)).1 =
        (getRealGridSize (some (1, 1)) ((fun _ => Edges.mk 0 1 0 1) z)).1 ∧
      gridColCount ((fun _ => Edges.mk 0 1 0 1) z)
          (getRealGridSize (some (1, 1)) ((fun _ => Edges.mk 0 1 0 1) z)).2 =
        (getRealGridSize (some (1, 1)) ((fun _ => Edges.mk 0 1 0 1) z)).2) ∧
    (∃ t, getMultipleSpectra (fun _ _ _ => (1 : ℚ)) none [1, 2] [1, 1]
        (some (1, 1)) (fun _ => Edges.mk 0 1 0 1) ["a"] = some t ∧
      t.length = ((["a"] : List String).map (fun z =>
        (getRealGridSize (some (1, 1)) ((fun _ => Edges.mk 0 1 0 1) z)).1 *
          (getRealGridSize (some (1, 1)) ((fun _ => Edges.mk 0 1 0 1) z)).2)).sum ∧
      ∀ r ∈ t, r.values.length =
        (([1, 1] : List ℤ).filter (fun x => x = 1)).length) :=
  ⟨rfl, by decide, by decide,
    getMultipleSpectra_table_shape (fun _ _ _ => (1 : ℚ)) none [1, 2] [1, 1]
      (some (1, 1)) (fun _ => Edges.mk 0 1 0 1) ["a"] rfl (by decide)
      (by decide)⟩

